import Mathlib

/-!
Verification of `src/main.py` of the `ocr-review` repository: a batch
script that, for each page in a range, checks the page image exists,
loads it, crops a fixed region of interest, preprocesses the crop,
runs an OCR engine on it, filters the recognized lines by confidence,
and writes the surviving texts to a CSV file in chunks of four.

The script's interactions with the outside world (filesystem, image
decoder, OCR engine) are modelled by an environment `PageEnv` given per
page; the script's observable effects (printed messages, CSV rows,
the page/path iteration order) are returned explicitly.
-/

namespace OCRReview

/-- One recognized line from the OCR engine: `line[1][0]` is the text and
`line[1][1]` the confidence score (modelled as a rational). -/
structure OCRLine where
  text : String
  confidence : ℚ
deriving DecidableEq

/-- Outcome, for one page, of the world the script interacts with:
`fileExists` models `os.path.exists(image_path)`, and `load` models
what happens when the script goes on to read and OCR the image. -/
inductive LoadEnv where
  /-- Case `cv2.imread` returned `None`: the image could not be decoded. -/
  | unloadable : LoadEnv
  /-- The image loaded; the OCR call either raised an exception
  (carrying its message) or returned `result` whose first element is
  `None`/falsy (`none`) or a list of recognized lines. -/
  | loaded : Except String (Option (List OCRLine)) → LoadEnv

/-- Per-page environment: whether the image file exists, and what the
load/OCR interaction yields if attempted. -/
structure PageEnv where
  fileExists : Bool
  load : LoadEnv

/-- Messages printed by the script, one constructor per `print` site
that the claims talk about. -/
inductive Msg where
  /-- Message of the form page-header printed at the top of `process_single_image`. -/
  | pageHeader : Nat → Msg
  /-- Message that the image file at the given path was not found. -/
  | fileNotFound : String → Msg
  /-- Message that the image at the given path could not be loaded, when `cv2.imread` returns `None`. -/
  | loadFailed : String → Msg
  /-- Message carrying the exception text when the OCR call raises. -/
  | ocrError : String → Msg
  /-- Message giving the count of recognized texts, before echoing the rows. -/
  | recognizedCount : Nat → Msg
  /-- One echoed row of up to four recognized texts. -/
  | recognizedRow : String → Msg
  /-- Message from `save_to_csv`: page number and number of texts saved. -/
  | savedPage : Nat → Nat → Msg
  /-- Message that no text was recognized, when extraction yields nothing. -/
  | noText : Msg
deriving DecidableEq

/-! ### Image preprocessing (`preprocess_image`)

The OpenCV image is modelled as its number of array dimensions
(`channels`, 3 for a BGR colour image, 2 for grayscale: the code tests
`len(image.shape) == 3`) together with the trace of operations applied
to it, each operation recorded with its fixed parameters. -/

/-- One OpenCV operation applied to an image, with its parameters. -/
inductive ImgOp where
  /-- Step `cv2.cvtColor(image, cv2.COLOR_BGR2GRAY)`. -/
  | cvtColorBGR2GRAY : ImgOp
  /-- Step `image.copy()` on an already-grayscale input. -/
  | grayCopy : ImgOp
  /-- Step `cv2.GaussianBlur(img, (kw, kh), sigma)`. -/
  | gaussianBlur : Nat → Nat → Nat → ImgOp
  /-- Step `cv2.createCLAHE(clipLimit, tileGridSize=(tw, th)).apply(img)`. -/
  | clahe : ℚ → Nat → Nat → ImgOp
  /-- Step `cv2.threshold(img, lo, hi, cv2.THRESH_BINARY + cv2.THRESH_OTSU)`. -/
  | otsuThreshold : Nat → Nat → ImgOp
  /-- Step `cv2.morphologyEx(img, cv2.MORPH_CLOSE, np.ones((kw, kh)))`. -/
  | morphClose : Nat → Nat → ImgOp
deriving DecidableEq

/-- An image: its number of array dimensions and the trace of
operations that produced it. -/
structure Image where
  channels : Nat
  ops : List ImgOp
deriving DecidableEq

/-- Function `preprocess_image` (main.py lines 9-42): grayscale conversion (or a
copy when the input is already single-channel), Gaussian blur (1,1)/0,
CLAHE with clipLimit 2.0 and tile grid (8,8), Otsu binarization over
[0,255], morphological close with a (1,1) ones kernel, and a final
Gaussian blur (1,1)/0. -/
def preprocess_image (image : Image) : Image :=
  let gray : Image :=
    if image.channels = 3 then
      { channels := 2, ops := image.ops ++ [ImgOp.cvtColorBGR2GRAY] }
    else
      { image with ops := image.ops ++ [ImgOp.grayCopy] }
  let denoised : Image := { gray with ops := gray.ops ++ [ImgOp.gaussianBlur 1 1 0] }
  let enhanced : Image := { denoised with ops := denoised.ops ++ [ImgOp.clahe 2 8 8] }
  let binary : Image := { enhanced with ops := enhanced.ops ++ [ImgOp.otsuThreshold 0 255] }
  let morphed : Image := { binary with ops := binary.ops ++ [ImgOp.morphClose 1 1] }
  { morphed with ops := morphed.ops ++ [ImgOp.gaussianBlur 1 1 0] }

/-! ### Text extraction (`extract_roi_text`) -/

/-- The confidence threshold `0.6` of main.py line 83, written as the
exact rational 6/10 (see `confThreshold_eq_literal`). -/
def confThreshold : ℚ := mkRat 6 10

/-- The accumulation loop of `extract_roi_text` (main.py lines 78-84):
walk the OCR lines in order and append `line[1][0]` whenever
`line[1][1] > 0.6`. -/
def extractLoop (lines : List OCRLine) : List String :=
  lines.foldl (fun acc l => if l.confidence > confThreshold then acc ++ [l.text] else acc) []

/-- Function `extract_roi_text` (main.py lines 44-89), given the load/OCR
environment for the page. Returns the extracted texts together with the
messages printed. The crop and `preprocess_image` steps do not affect
which texts come back, which is what this function's results model;
on load failure or OCR exception it prints and returns `[]`, and when
`result and result[0]` is falsy no line is kept. -/
def extract_roi_text (image_path : String) (env : LoadEnv) :
    List String × List Msg :=
  match env with
  | LoadEnv.unloadable => ([], [Msg.loadFailed image_path])
  | LoadEnv.loaded (Except.error e) => ([], [Msg.ocrError e])
  | LoadEnv.loaded (Except.ok none) => ([], [])
  | LoadEnv.loaded (Except.ok (some lines)) => (extractLoop lines, [])

/-! ### CSV writing (`save_to_csv`) -/

/-- The successive slices `extracted_text[i:i+4]` taken by the loop
`for i in range(0, len(extracted_text), 4)` (main.py line 101). -/
def chunks4 : List String → List (List String)
  | [] => []
  | [a] => [[a]]
  | [a, b] => [[a, b]]
  | [a, b, c] => [[a, b, c]]
  | a :: b :: c :: d :: rest => [a, b, c, d] :: chunks4 rest

/-- Function `save_to_csv` (main.py lines 91-107): write one CSV row per slice of
up to four texts, the row holding the single cell
`"  ".join(row_texts)`, then print the completion message. Rows are
lists of cells, matching `csv_writer.writerow([...])` receiving a
one-element list. -/
def save_to_csv (extracted_text : List String) (page_num : Nat) :
    List (List String) × List Msg :=
  ((chunks4 extracted_text).map (fun r => [String.intercalate "  " r]),
   [Msg.savedPage page_num extracted_text.length])

/-! ### Per-page processing (`process_single_image`) -/

/-- Function `process_single_image` (main.py lines 109-137): print the page
header; if the file is missing print and return `False`; otherwise
extract, and if any text survived echo the rows, save them to CSV and
return `True`, else print the no-text message and return `False`.
Returns (success flag, CSV rows written, messages printed). -/
def process_single_image (image_path : String) (env : PageEnv)
    (page_num : Nat) : Bool × List (List String) × List Msg :=
  if env.fileExists = false then
    (false, [], [Msg.pageHeader page_num, Msg.fileNotFound image_path])
  else
    let ext := extract_roi_text image_path env.load
    if ext.1.isEmpty then
      (false, [], Msg.pageHeader page_num :: ext.2 ++ [Msg.noText])
    else
      let saved := save_to_csv ext.1 page_num
      (true, saved.1,
        Msg.pageHeader page_num :: ext.2
          ++ [Msg.recognizedCount ext.1.length]
          ++ (chunks4 ext.1).map (fun r => Msg.recognizedRow ("  " ++ String.intercalate "  " r))
          ++ saved.2)

/-! ### The pipeline (`process_pipeline`) -/

/-- The image path `f"{base_path}/page_{page_num}.png"` with
`base_path = "POST_EVT_4"` (main.py lines 147-148, 166). -/
def imagePath (page_num : Nat) : String :=
  "POST_EVT_4/page_" ++ toString page_num ++ ".png"

/-- The pages visited by `for page_num in range(start_page, end_page + 1)`
(main.py line 165), in iteration order. -/
def pageRange (start_page end_page : Nat) : List Nat :=
  List.range' start_page (end_page + 1 - start_page)

/-- State threaded through the pipeline loop: the two counters, the CSV
rows written so far (in order), the messages printed so far, and the
trace of (page number, image path) pairs processed so far. -/
structure PipelineState where
  successful_pages : Nat
  failed_pages : Nat
  csv : List (List String)
  msgs : List Msg
  trace : List (Nat × String)
deriving DecidableEq

/-- One iteration of the pipeline loop (main.py lines 165-171): build
the image path, process the page, bump exactly one counter, and append
the page's CSV rows and messages. -/
def pipelineStep (env : Nat → PageEnv) (st : PipelineState) (page_num : Nat) :
    PipelineState :=
  let path := imagePath page_num
  let r := process_single_image path (env page_num) page_num
  { successful_pages := st.successful_pages + (if r.1 then 1 else 0)
    failed_pages := st.failed_pages + (if r.1 then 0 else 1)
    csv := st.csv ++ r.2.1
    msgs := st.msgs ++ r.2.2
    trace := st.trace ++ [(page_num, path)] }

/-- Function `process_pipeline` (main.py lines 139-180): iterate the page range
from a fresh state (counters 0, nothing written). -/
def process_pipeline (env : Nat → PageEnv) (start_page end_page : Nat) :
    PipelineState :=
  (pageRange start_page end_page).foldl (pipelineStep env)
    { successful_pages := 0, failed_pages := 0, csv := [], msgs := [], trace := [] }

/-- Function `main` (main.py lines 182-183): run the pipeline with the default
page range 2..51. -/
def main_run (env : Nat → PageEnv) : PipelineState :=
  process_pipeline env 2 51

/-- Opening `"my_type1.csv"` with mode `'w'` (main.py line 162)
truncates whatever the file held before the run. -/
def openModeW (_prior : List (List String)) : List (List String) :=
  []

/-- The contents of `my_type1.csv` after a run, given its contents
before the run: the `'w'`-mode open truncates, then the run's rows are
written in order. -/
def runFileContents (prior : List (List String)) (env : Nat → PageEnv)
    (start_page end_page : Nat) : List (List String) :=
  openModeW prior ++ (process_pipeline env start_page end_page).csv

/-! ### Per-page observations, for stating whole-run properties -/

/-- The success flag `process_single_image` returns for page `n`. -/
def pageOk (env : Nat → PageEnv) (n : Nat) : Bool :=
  (process_single_image (imagePath n) (env n) n).1

/-- The CSV rows page `n` contributes. -/
def pageRows (env : Nat → PageEnv) (n : Nat) : List (List String) :=
  (process_single_image (imagePath n) (env n) n).2.1

/-- The messages page `n` prints. -/
def pageMsgs (env : Nat → PageEnv) (n : Nat) : List Msg :=
  (process_single_image (imagePath n) (env n) n).2.2

/-- Concatenation of the per-page lists over a list of pages. -/
def catMap {α : Type} (f : Nat → List α) : List Nat → List α
  | [] => []
  | n :: l => f n ++ catMap f l

/-! ### Helper lemmas -/

/-- Unfolding lemma: `chunks4` does take exactly the slices `l[i:i+4]` of the Python
loop: each chunk is four elements followed by the chunks of the rest. -/
lemma chunks4_cons (a : String) (rest : List String) :
    chunks4 (a :: rest) = (a :: rest).take 4 :: chunks4 ((a :: rest).drop 4) := by
  match rest with
  | [] => rfl
  | [b] => rfl
  | [b, c] => rfl
  | b :: c :: d :: rest => rfl

lemma chunks4_length (l : List String) : (chunks4 l).length = (l.length + 3) / 4 := by
  induction l using chunks4.induct with
  | case1 => simp [chunks4]
  | case2 a => simp [chunks4]
  | case3 a b => simp [chunks4]
  | case4 a b c => simp [chunks4]
  | case5 a b c d rest ih =>
      simp only [chunks4, List.length_cons] at *
      omega

lemma chunks4_getElem? (l : List String) (i : Nat) (h : i < (chunks4 l).length) :
    (chunks4 l)[i]? = some ((l.drop (4 * i)).take 4) := by
  induction l using chunks4.induct generalizing i with
  | case1 => simp [chunks4] at h
  | case2 a =>
      simp only [chunks4, List.length_singleton] at h
      match i with
      | 0 => simp [chunks4]
  | case3 a b =>
      simp only [chunks4, List.length_singleton] at h
      match i with
      | 0 => simp [chunks4]
  | case4 a b c =>
      simp only [chunks4, List.length_singleton] at h
      match i with
      | 0 => simp [chunks4]
  | case5 a b c d rest ih =>
      match i with
      | 0 => simp [chunks4]
      | i + 1 =>
          have h4 : 4 * (i + 1) = 4 * i + 1 + 1 + 1 + 1 := by omega
          rw [h4]
          simp only [chunks4, List.getElem?_cons_succ, List.drop_succ_cons]
          exact ih i (by simp only [chunks4, List.length_cons] at h; omega)

lemma chunks4_getElem (l : List String) (i : Nat) (h : i < (chunks4 l).length) :
    (chunks4 l)[i] = (l.drop (4 * i)).take 4 := by
  have h2 := chunks4_getElem? l i h
  rw [List.getElem?_eq_getElem h] at h2
  exact Option.some.inj h2

lemma catMap_append {α : Type} (f : Nat → List α) (l1 l2 : List Nat) :
    catMap f (l1 ++ l2) = catMap f l1 ++ catMap f l2 := by
  induction l1 with
  | nil => simp [catMap]
  | cons n l ih => simp [catMap, ih]

lemma mem_catMap {α : Type} (f : Nat → List α) (l : List Nat) (n : Nat) (a : α)
    (hn : n ∈ l) (ha : a ∈ f n) : a ∈ catMap f l := by
  induction l with
  | nil => cases hn
  | cons m l ih =>
      rcases List.mem_cons.mp hn with h | h
      · subst h; exact List.mem_append.mpr (Or.inl ha)
      · exact List.mem_append.mpr (Or.inr (ih h))

lemma length_filter_both (p : Nat → Bool) (l : List Nat) :
    (l.filter p).length + (l.filter (fun n => ! p n)).length = l.length := by
  induction l with
  | nil => rfl
  | cons n l ih => cases h : p n <;> simp [List.filter_cons, h] <;> omega

/-- The pipeline fold, fully characterized: counters count the
succeeding / failing pages, and CSV rows, messages and the trace are
the per-page contributions concatenated in iteration order. -/
lemma foldl_pipelineStep (env : Nat → PageEnv) (l : List Nat) (st : PipelineState) :
    l.foldl (pipelineStep env) st =
      { successful_pages := st.successful_pages + (l.filter (fun n => pageOk env n)).length
        failed_pages := st.failed_pages + (l.filter (fun n => ! pageOk env n)).length
        csv := st.csv ++ catMap (pageRows env) l
        msgs := st.msgs ++ catMap (pageMsgs env) l
        trace := st.trace ++ l.map (fun n => (n, imagePath n)) } := by
  induction l generalizing st with
  | nil => simp [catMap]
  | cons n l ih =>
      rw [List.foldl_cons, ih]
      cases hok : pageOk env n <;>
        · simp only [pipelineStep, pageOk, pageRows, pageMsgs, catMap, List.filter_cons,
            List.map_cons] at *
          rw [hok]
          simp [hok, List.append_assoc, PipelineState.mk.injEq]
          omega

lemma process_pipeline_eq (env : Nat → PageEnv) (s e : Nat) :
    process_pipeline env s e =
      { successful_pages := ((pageRange s e).filter (fun n => pageOk env n)).length
        failed_pages := ((pageRange s e).filter (fun n => ! pageOk env n)).length
        csv := catMap (pageRows env) (pageRange s e)
        msgs := catMap (pageMsgs env) (pageRange s e)
        trace := (pageRange s e).map (fun n => (n, imagePath n)) } := by
  rw [process_pipeline, foldl_pipelineStep]
  simp

lemma confThreshold_eq_literal : confThreshold = 0.6 := by
  rw [confThreshold]
  norm_num [Rat.mkRat_eq_div]

lemma foldl_extract (lines : List OCRLine) (acc : List String) :
    lines.foldl (fun acc l => if l.confidence > confThreshold then acc ++ [l.text] else acc) acc
      = acc ++ (lines.filter (fun l => decide (confThreshold < l.confidence))).map OCRLine.text := by
  induction lines generalizing acc with
  | nil => simp
  | cons l ls ih =>
      by_cases h : confThreshold < l.confidence <;>
        simp [List.filter_cons, h, ih, List.append_assoc]

lemma extractLoop_eq (lines : List OCRLine) :
    extractLoop lines
      = (lines.filter (fun l => decide (confThreshold < l.confidence))).map OCRLine.text := by
  rw [extractLoop, foldl_extract]
  simp

/-! ### Concrete environments used to exercise the results -/

/-- Environment in which no page image file exists. -/
def envAllMissing : Nat → PageEnv := fun _ =>
  { fileExists := false, load := LoadEnv.unloadable }

/-- Environment in which every page image exists, loads, and OCR
returns one line of confidence 9/10. -/
def envAllGood : Nat → PageEnv := fun _ =>
  { fileExists := true
    load := LoadEnv.loaded (Except.ok (some [{ text := "hello", confidence := mkRat 9 10 }])) }

/-- Environment in which every page image exists and loads but OCR only
finds a line of confidence 1/2, below the threshold. -/
def envLowConf : Nat → PageEnv := fun _ =>
  { fileExists := true
    load := LoadEnv.loaded (Except.ok (some [{ text := "x", confidence := mkRat 1 2 }])) }

/-- Environment in which every page's OCR call raises an exception. -/
def envOcrRaises : Nat → PageEnv := fun _ =>
  { fileExists := true, load := LoadEnv.loaded (Except.error "cuda error") }

/-! ### The claims -/

/-- C1: for every list of recognized text fragments written for a page,
the CSV output contains one column per row; row `i` is the
double-space join of the chunk of up to 4 consecutive fragments
starting at index `4*i`, chunks taken in order from index 0; and a
list of `n` fragments produces `⌈n/4⌉ = (n+3)/4` rows. -/
theorem C1_csv_chunking (extracted_text : List String) (page_num : Nat) :
    (save_to_csv extracted_text page_num).1.length = (extracted_text.length + 3) / 4 ∧
    (∀ r ∈ (save_to_csv extracted_text page_num).1, r.length = 1) ∧
    (∀ i (h : i < (save_to_csv extracted_text page_num).1.length),
      (save_to_csv extracted_text page_num).1.get ⟨i, h⟩
        = [String.intercalate "  " ((extracted_text.drop (4 * i)).take 4)]) := by
  refine ⟨?_, ?_, ?_⟩
  · simp [save_to_csv, chunks4_length]
  · intro r hr
    simp only [save_to_csv, List.mem_map] at hr
    obtain ⟨c, _, rfl⟩ := hr
    rfl
  · intro i h
    simp only [save_to_csv, List.get_eq_getElem, List.getElem_map]
    rw [chunks4_getElem]

/-- Witness for C1: five fragments give two rows; the second row is the
join of the final one-element chunk. -/
theorem C1_csv_chunking_witness :
    (save_to_csv ["a", "b", "c", "d", "e"] 7).1.length
      = ((["a", "b", "c", "d", "e"] : List String).length + 3) / 4 ∧
    (save_to_csv ["a", "b", "c", "d", "e"] 7).1.get ⟨1, by decide⟩
      = [String.intercalate "  "
          (((["a", "b", "c", "d", "e"] : List String).drop (4 * 1)).take 4)] :=
  ⟨(C1_csv_chunking ["a", "b", "c", "d", "e"] 7).1,
   (C1_csv_chunking ["a", "b", "c", "d", "e"] 7).2.2 1 (by decide)⟩

/-- C5: `preprocess_image` applies to every cropped region (which is a
3-channel BGR array, `len(image.shape) == 3`) exactly: grayscale
conversion, Gaussian blur (1,1)/σ=0, CLAHE with clipLimit 2.0 and tile
grid (8,8), Otsu binarization over [0,255], morphological close with a
(1,1) ones kernel, and a final Gaussian blur (1,1)/σ=0, in this order,
all parameters fixed independently of the input. -/
theorem C5_preprocess_sequence (image : Image) (h : image.channels = 3) :
    preprocess_image image =
      { channels := 2
        ops := image.ops ++
          [ImgOp.cvtColorBGR2GRAY, ImgOp.gaussianBlur 1 1 0, ImgOp.clahe 2 8 8,
           ImgOp.otsuThreshold 0 255, ImgOp.morphClose 1 1, ImgOp.gaussianBlur 1 1 0] } := by
  simp [preprocess_image, h]

/-- Witness for C5 at a fresh 3-channel image. -/
theorem C5_preprocess_sequence_witness :
    preprocess_image { channels := 3, ops := [] } =
      { channels := 2
        ops := [ImgOp.cvtColorBGR2GRAY, ImgOp.gaussianBlur 1 1 0, ImgOp.clahe 2 8 8,
                ImgOp.otsuThreshold 0 255, ImgOp.morphClose 1 1, ImgOp.gaussianBlur 1 1 0] } :=
  C5_preprocess_sequence { channels := 3, ops := [] } rfl

/-- C9: a recognized line is kept exactly when its confidence is
strictly greater than the threshold, which equals the literal 0.6;
kept lines appear in OCR order (the result is the in-order filter of
the lines, hence a sublist of the texts in engine order). -/
theorem C9_confidence_filtering (image_path : String) (lines : List OCRLine) :
    confThreshold = 0.6 ∧
    (extract_roi_text image_path (LoadEnv.loaded (Except.ok (some lines)))).1
      = (lines.filter (fun l => decide (confThreshold < l.confidence))).map OCRLine.text ∧
    List.Sublist
      ((extract_roi_text image_path (LoadEnv.loaded (Except.ok (some lines)))).1)
      (lines.map OCRLine.text) := by
  refine ⟨confThreshold_eq_literal, ?_, ?_⟩
  · simp only [extract_roi_text]
    exact extractLoop_eq lines
  · simp only [extract_roi_text]
    rw [extractLoop_eq]
    exact (List.filter_sublist lines).map OCRLine.text

/-- A sample mid-run pipeline state, used to exercise single loop
iterations. -/
def st0 : PipelineState :=
  { successful_pages := 3
    failed_pages := 1
    csv := [["earlier row"]]
    msgs := [Msg.pageHeader 1]
    trace := [(1, imagePath 1)] }

/-- C2: the pipeline visits exactly the pages `start_page..end_page`
inclusive, one page at a time in strictly ascending order, reading for
page `n` the image at `POST_EVT_4/page_<n>.png`; `main` runs it with
the default range 2..51 (the 50 pages starting at 2). -/
theorem C2_page_range (env : Nat → PageEnv) (start_page end_page : Nat) :
    (process_pipeline env start_page end_page).trace
      = (List.range' start_page (end_page + 1 - start_page)).map (fun n => (n, imagePath n)) ∧
    (∀ n : Nat, (n, imagePath n) ∈ (process_pipeline env start_page end_page).trace
      ↔ start_page ≤ n ∧ n ≤ end_page) ∧
    List.Pairwise (fun p q => p.1 < q.1) (process_pipeline env start_page end_page).trace ∧
    (main_run env).trace = (List.range' 2 50).map (fun n => (n, imagePath n)) := by
  have htr : ∀ s e, (process_pipeline env s e).trace
      = (List.range' s (e + 1 - s)).map (fun n => (n, imagePath n)) := by
    intro s e
    rw [process_pipeline_eq]
    rfl
  refine ⟨htr _ _, ?_, ?_, ?_⟩
  · intro n
    rw [htr]
    simp only [List.mem_map]
    constructor
    · rintro ⟨m, hm, heq⟩
      have hmn : m = n := congrArg Prod.fst heq
      subst hmn
      rw [List.mem_range'_1] at hm
      omega
    · rintro ⟨h1, h2⟩
      exact ⟨n, List.mem_range'_1.mpr ⟨h1, by omega⟩, rfl⟩
  · rw [htr, List.pairwise_map]
    exact List.pairwise_lt_range' start_page (end_page + 1 - start_page)
  · rw [main_run, htr]

/-- C3: when the image file for page `n` in the processed range is
missing, the not-found message with that page's path is printed, the
page prints nothing else (so no OCR is attempted and nothing is
saved), it contributes no CSV rows, its loop iteration increments the
failure counter by exactly one leaving the success counter and the CSV
untouched, and the pipeline still visits every page of the range. -/
theorem C3_missing_file (env : Nat → PageEnv) (st : PipelineState) (s e n : Nat)
    (hs : s ≤ n) (he : n ≤ e) (hmiss : (env n).fileExists = false) :
    Msg.fileNotFound (imagePath n) ∈ (process_pipeline env s e).msgs ∧
    pageMsgs env n = [Msg.pageHeader n, Msg.fileNotFound (imagePath n)] ∧
    pageRows env n = [] ∧
    pageOk env n = false ∧
    (pipelineStep env st n).failed_pages = st.failed_pages + 1 ∧
    (pipelineStep env st n).successful_pages = st.successful_pages ∧
    (pipelineStep env st n).csv = st.csv ∧
    (process_pipeline env s e).trace = (pageRange s e).map (fun k => (k, imagePath k)) := by
  have hmsgs : (process_single_image (imagePath n) (env n) n).2.2
      = [Msg.pageHeader n, Msg.fileNotFound (imagePath n)] := by
    simp [process_single_image, hmiss]
  have hrows : (process_single_image (imagePath n) (env n) n).2.1 = [] := by
    simp [process_single_image, hmiss]
  have hok : (process_single_image (imagePath n) (env n) n).1 = false := by
    simp [process_single_image, hmiss]
  refine ⟨?_, hmsgs, hrows, hok, ?_, ?_, ?_, ?_⟩
  · rw [process_pipeline_eq]
    refine mem_catMap _ _ n _ ?_ ?_
    · rw [pageRange]
      exact List.mem_range'_1.mpr ⟨hs, by omega⟩
    · rw [pageMsgs, hmsgs]
      simp
  · simp [pipelineStep, hok]
  · simp [pipelineStep, hok]
  · simp [pipelineStep, hrows]
  · rw [process_pipeline_eq]

/-- Witness for C3: pipeline over pages 2..3 with every file missing,
one loop iteration taken from the sample state `st0`. -/
theorem C3_missing_file_witness :
    Msg.fileNotFound (imagePath 2) ∈ (process_pipeline envAllMissing 2 3).msgs ∧
    pageMsgs envAllMissing 2 = [Msg.pageHeader 2, Msg.fileNotFound (imagePath 2)] ∧
    pageRows envAllMissing 2 = [] ∧
    pageOk envAllMissing 2 = false ∧
    (pipelineStep envAllMissing st0 2).failed_pages = st0.failed_pages + 1 ∧
    (pipelineStep envAllMissing st0 2).successful_pages = st0.successful_pages ∧
    (pipelineStep envAllMissing st0 2).csv = st0.csv ∧
    (process_pipeline envAllMissing 2 3).trace
      = (pageRange 2 3).map (fun k => (k, imagePath k)) :=
  C3_missing_file envAllMissing st0 2 3 2 (by decide) (by decide) rfl

/-- C4: when the OCR call for page `n` raises an exception,
`extract_roi_text` returns the empty list and the error message is
printed; the page is counted as a failure (failure counter up by one,
success counter unchanged) and writes no CSV rows, the CSV being
unchanged by its iteration. -/
theorem C4_ocr_exception (env : Nat → PageEnv) (st : PipelineState) (n : Nat) (err : String)
    (hex : (env n).fileExists = true)
    (herr : (env n).load = LoadEnv.loaded (Except.error err)) :
    extract_roi_text (imagePath n) ((env n).load) = ([], [Msg.ocrError err]) ∧
    Msg.ocrError err ∈ pageMsgs env n ∧
    pageOk env n = false ∧
    pageRows env n = [] ∧
    (pipelineStep env st n).failed_pages = st.failed_pages + 1 ∧
    (pipelineStep env st n).successful_pages = st.successful_pages ∧
    (pipelineStep env st n).csv = st.csv := by
  have hext : extract_roi_text (imagePath n) ((env n).load) = ([], [Msg.ocrError err]) := by
    rw [herr]
    rfl
  have hok : (process_single_image (imagePath n) (env n) n).1 = false := by
    simp [process_single_image, hex, hext]
  have hrows : (process_single_image (imagePath n) (env n) n).2.1 = [] := by
    simp [process_single_image, hex, hext]
  refine ⟨hext, ?_, hok, hrows, ?_, ?_, ?_⟩
  · rw [pageMsgs]
    simp [process_single_image, hex, hext]
  · simp [pipelineStep, hok]
  · simp [pipelineStep, hok]
  · simp [pipelineStep, hrows]

/-- Witness for C4: an OCR exception on page 2, one loop iteration
taken from the sample state `st0`. -/
theorem C4_ocr_exception_witness :
    extract_roi_text (imagePath 2) ((envOcrRaises 2).load)
      = ([], [Msg.ocrError "cuda error"]) ∧
    Msg.ocrError "cuda error" ∈ pageMsgs envOcrRaises 2 ∧
    pageOk envOcrRaises 2 = false ∧
    pageRows envOcrRaises 2 = [] ∧
    (pipelineStep envOcrRaises st0 2).failed_pages = st0.failed_pages + 1 ∧
    (pipelineStep envOcrRaises st0 2).successful_pages = st0.successful_pages ∧
    (pipelineStep envOcrRaises st0 2).csv = st0.csv :=
  C4_ocr_exception envOcrRaises st0 2 "cuda error" rfl rfl

/-- C6: CSV rows appear in page order. The run's CSV is the
concatenation of the per-page rows in iteration order; within one
iteration the page's rows are appended as a block after everything
already written; and whenever `s ≤ m < n ≤ e`, the run's CSV splits as
(rows of pages before `m`) ++ rows of `m` ++ (rows of pages strictly
between) ++ rows of `n` ++ (rows of pages after `n`), so every row of
page `m` precedes every row of page `n`. -/
theorem C6_rows_page_order (env : Nat → PageEnv) (st : PipelineState) (s e m n : Nat)
    (hs : s ≤ m) (hmn : m < n) (hne : n ≤ e) :
    (process_pipeline env s e).csv = catMap (pageRows env) (pageRange s e) ∧
    (pipelineStep env st n).csv = st.csv ++ pageRows env n ∧
    (process_pipeline env s e).csv
      = catMap (pageRows env) (List.range' s (m - s))
        ++ pageRows env m
        ++ catMap (pageRows env) (List.range' (m + 1) (n - m - 1))
        ++ pageRows env n
        ++ catMap (pageRows env) (List.range' (n + 1) (e - n)) := by
  have hA : List.range' s (e + 1 - s)
      = List.range' s (m - s) ++ List.range' m (e + 1 - m) := by
    have h := List.range'_append_1 s (m - s) (e + 1 - m)
    rw [show s + (m - s) = m by omega] at h
    rw [show e + 1 - m + (m - s) = e + 1 - s by omega] at h
    exact h.symm
  have hB : List.range' m (e + 1 - m)
      = List.range' m (n - m) ++ List.range' n (e + 1 - n) := by
    have h := List.range'_append_1 m (n - m) (e + 1 - n)
    rw [show m + (n - m) = n by omega] at h
    rw [show e + 1 - n + (n - m) = e + 1 - m by omega] at h
    exact h.symm
  have hC : List.range' m (n - m) = m :: List.range' (m + 1) (n - m - 1) := by
    obtain ⟨k, hk⟩ : ∃ k, n - m = k + 1 := ⟨n - m - 1, by omega⟩
    rw [hk, List.range'_succ, show k = n - m - 1 by omega]
    simp
  have hD : List.range' n (e + 1 - n) = n :: List.range' (n + 1) (e - n) := by
    obtain ⟨k, hk⟩ : ∃ k, e + 1 - n = k + 1 := ⟨e - n, by omega⟩
    rw [hk, List.range'_succ, show k = e - n by omega]
  refine ⟨?_, rfl, ?_⟩
  · rw [process_pipeline_eq]
  · rw [process_pipeline_eq]
    show catMap (pageRows env) (pageRange s e) = _
    rw [pageRange, hA, hB, hC, hD]
    simp [catMap_append, catMap, List.append_assoc]

/-- Witness for C6: a run over pages 2..5 in which every page yields a
row; the rows of page 2 precede the rows of page 4. -/
theorem C6_rows_page_order_witness :
    (process_pipeline envAllGood 2 5).csv = catMap (pageRows envAllGood) (pageRange 2 5) ∧
    (pipelineStep envAllGood st0 4).csv = st0.csv ++ pageRows envAllGood 4 ∧
    (process_pipeline envAllGood 2 5).csv
      = catMap (pageRows envAllGood) (List.range' 2 (2 - 2))
        ++ pageRows envAllGood 2
        ++ catMap (pageRows envAllGood) (List.range' (2 + 1) (4 - 2 - 1))
        ++ pageRows envAllGood 4
        ++ catMap (pageRows envAllGood) (List.range' (4 + 1) (5 - 4)) :=
  C6_rows_page_order envAllGood st0 2 5 2 4 (by decide) (by decide) (by decide)

/-- C7: every loop iteration increments exactly one of the two
counters (their sum grows by exactly one), and a completed run over
`s ≤ e` ends with `successful_pages + failed_pages = e - s + 1`, the
reported total. -/
theorem C7_counter_totals (env : Nat → PageEnv) (st : PipelineState) (s e n : Nat)
    (h : s ≤ e) :
    (pipelineStep env st n).successful_pages + (pipelineStep env st n).failed_pages
      = st.successful_pages + st.failed_pages + 1 ∧
    (process_pipeline env s e).successful_pages + (process_pipeline env s e).failed_pages
      = e - s + 1 := by
  constructor
  · simp only [pipelineStep]
    cases (process_single_image (imagePath n) (env n) n).1 <;> simp <;> omega
  · rw [process_pipeline_eq]
    have hsum := length_filter_both (fun k => pageOk env k) (pageRange s e)
    have hlen : (pageRange s e).length = e + 1 - s := by
      simp [pageRange]
    simp only at hsum ⊢
    omega

/-- Witness for C7: pages 2..4 with one page succeeding per iteration;
the counters sum to 3. -/
theorem C7_counter_totals_witness :
    (pipelineStep envAllGood st0 2).successful_pages + (pipelineStep envAllGood st0 2).failed_pages
      = st0.successful_pages + st0.failed_pages + 1 ∧
    (process_pipeline envAllGood 2 4).successful_pages
        + (process_pipeline envAllGood 2 4).failed_pages
      = 4 - 2 + 1 :=
  C7_counter_totals envAllGood st0 2 4 2 (by decide)

/-- C8 as stated is false on the code: `process_pipeline` opens
`my_type1.csv` with mode `'w'` (main.py line 162), which truncates the
file. With `[["old"]]` present beforehand and every image missing, the
file afterwards does not equal the prior content followed by the run's
rows. -/
theorem C8_counterexample :
    runFileContents [["old"]] envAllMissing 2 2
      ≠ [["old"]] ++ (process_pipeline envAllMissing 2 2).csv := by
  decide

/-- C8 (amended): the run opens the CSV file in write mode, truncating
any previously present content; the rows recognized during the run are
then appended in page order, so after the run the file holds exactly
this run's rows. -/
theorem C8_truncate_then_append (prior : List (List String)) (env : Nat → PageEnv)
    (st : PipelineState) (s e n : Nat) :
    runFileContents prior env s e = (process_pipeline env s e).csv ∧
    openModeW prior = [] ∧
    (pipelineStep env st n).csv = st.csv ++ pageRows env n ∧
    (process_pipeline env s e).csv = catMap (pageRows env) (pageRange s e) := by
  refine ⟨rfl, rfl, rfl, ?_⟩
  rw [process_pipeline_eq]

/-- C10: a page whose file exists but whose extraction yields an empty
list is counted as a failure and writes no CSV rows, with the same
flag and rows as a missing-file page; and extraction is empty in each
of the three ways this happens (undecodable image, falsy OCR result,
or every line at or below the confidence threshold). -/
theorem C10_empty_extraction (env : Nat → PageEnv) (st : PipelineState) (n : Nat)
    (p : String) (lines : List OCRLine)
    (hex : (env n).fileExists = true)
    (hempty : (extract_roi_text (imagePath n) ((env n).load)).1 = [])
    (hlow : ∀ l ∈ lines, l.confidence ≤ confThreshold) :
    pageOk env n = false ∧
    pageRows env n = [] ∧
    Msg.noText ∈ pageMsgs env n ∧
    (pipelineStep env st n).failed_pages = st.failed_pages + 1 ∧
    (pipelineStep env st n).successful_pages = st.successful_pages ∧
    (pipelineStep env st n).csv = st.csv ∧
    pageOk env n
      = (process_single_image (imagePath n)
          { fileExists := false, load := LoadEnv.unloadable } n).1 ∧
    pageRows env n
      = (process_single_image (imagePath n)
          { fileExists := false, load := LoadEnv.unloadable } n).2.1 ∧
    (extract_roi_text p LoadEnv.unloadable).1 = [] ∧
    (extract_roi_text p (LoadEnv.loaded (Except.ok none))).1 = [] ∧
    (extract_roi_text p (LoadEnv.loaded (Except.ok (some lines)))).1 = [] := by
  have hok : (process_single_image (imagePath n) (env n) n).1 = false := by
    simp [process_single_image, hex, hempty]
  have hrows : (process_single_image (imagePath n) (env n) n).2.1 = [] := by
    simp [process_single_image, hex, hempty]
  refine ⟨hok, hrows, ?_, ?_, ?_, ?_, ?_, ?_, rfl, rfl, ?_⟩
  · rw [pageMsgs]
    simp [process_single_image, hex, hempty]
  · simp [pipelineStep, hok]
  · simp [pipelineStep, hok]
  · simp [pipelineStep, hrows]
  · rw [pageOk, hok]
    simp [process_single_image]
  · rw [pageRows, hrows]
    simp [process_single_image]
  · simp only [extract_roi_text]
    rw [extractLoop_eq]
    simp only [List.map_eq_nil_iff, List.filter_eq_nil_iff]
    intro l hl
    simp only [decide_eq_true_eq]
    exact not_lt.mpr (hlow l hl)

/-- Witness for C10: page 2 exists and loads but its only OCR line has
confidence 1/2, at or below the threshold; one loop iteration taken
from the sample state `st0`. -/
theorem C10_empty_extraction_witness :
    pageOk envLowConf 2 = false ∧
    pageRows envLowConf 2 = [] ∧
    Msg.noText ∈ pageMsgs envLowConf 2 ∧
    (pipelineStep envLowConf st0 2).failed_pages = st0.failed_pages + 1 ∧
    (pipelineStep envLowConf st0 2).successful_pages = st0.successful_pages ∧
    (pipelineStep envLowConf st0 2).csv = st0.csv ∧
    pageOk envLowConf 2
      = (process_single_image (imagePath 2)
          { fileExists := false, load := LoadEnv.unloadable } 2).1 ∧
    pageRows envLowConf 2
      = (process_single_image (imagePath 2)
          { fileExists := false, load := LoadEnv.unloadable } 2).2.1 ∧
    (extract_roi_text "p" LoadEnv.unloadable).1 = [] ∧
    (extract_roi_text "p" (LoadEnv.loaded (Except.ok none))).1 = [] ∧
    (extract_roi_text "p" (LoadEnv.loaded (Except.ok
        (some [{ text := "x", confidence := mkRat 1 2 }])))).1 = [] :=
  C10_empty_extraction envLowConf st0 2 "p" [{ text := "x", confidence := mkRat 1 2 }]
    rfl (by decide) (by decide)

end OCRReview
